import Mathlib

/-!
Shallow embedding of the STEP-file triangulator (`src/step/src/triangulate.rs`).

Modelling conventions:
* Rust `f64` values are modelled as real numbers (`ℝ`); the floating-point
  rounding of the source is not modelled, but every arithmetic expression is
  translated literally.
* Fallible operations are modelled in the `Option` monad: `none` represents a
  Rust panic (`unwrap`, `expect`, failed `assert!`, out-of-bounds indexing).
* The entity store (`&[DataEntity]`) is a `List DataEntity`; an entity
  identifier is a natural-number index into that list.
* External collaborators that are out of scope for the spec — the constrained
  Delaunay triangulation engine (`cdt` crate) and the NURBS evaluation crate
  (`nurbs`) — are parameters (`Ext`), consumed through the same narrow
  interface the source uses.
* `eprintln!` diagnostics and SVG/STL file writes are I/O side effects with no
  influence on the computed data; they are not modelled (the `save_debug_svg`
  call is assumed to succeed).
-/

namespace StepTri

/-- 2D double vector (`DVec2`). -/
structure V2 where
  x : ℝ
  y : ℝ

/-- 3D double vector (`DVec3`). -/
structure V3 where
  x : ℝ
  y : ℝ
  z : ℝ

/-- 4D double vector (`DVec4`). -/
structure V4 where
  x : ℝ
  y : ℝ
  z : ℝ
  w : ℝ

namespace V3

def add (a b : V3) : V3 := ⟨a.x + b.x, a.y + b.y, a.z + b.z⟩

def sub (a b : V3) : V3 := ⟨a.x - b.x, a.y - b.y, a.z - b.z⟩

def neg (a : V3) : V3 := ⟨-a.x, -a.y, -a.z⟩

def smul (r : ℝ) (a : V3) : V3 := ⟨r * a.x, r * a.y, r * a.z⟩

def dot (a b : V3) : ℝ := a.x * b.x + a.y * b.y + a.z * b.z

/-- Cross product, as used by `nalgebra`'s `Vector3::cross`. -/
def cross (a b : V3) : V3 :=
  ⟨a.y * b.z - a.z * b.y, a.z * b.x - a.x * b.z, a.x * b.y - a.y * b.x⟩

/-- `glm::distance2`: squared euclidean distance. -/
def distance2 (a b : V3) : ℝ := (sub a b).dot (sub a b)

/-- `normalize`: divide by the euclidean norm. -/
noncomputable def normalize (a : V3) : V3 :=
  smul (Real.sqrt (a.dot a))⁻¹ a

end V3

/-- `glm::vec4_to_vec3`: drop the `w` component. -/
def vec4_to_vec3 (v : V4) : V3 := ⟨v.x, v.y, v.z⟩

/-- Lift a 3D point to homogeneous coordinates with the given `w`. -/
def v4of (v : V3) (w : ℝ) : V4 := ⟨v.x, v.y, v.z, w⟩

/-- 4×4 double matrix (`DMat4`). -/
abbrev Mat4 := Matrix (Fin 4) (Fin 4) ℝ

/-- Build a matrix from its four columns (`set_column(0..3)` on an identity,
all columns being overwritten). -/
def colMat (c0 c1 c2 c3 : Fin 4 → ℝ) : Mat4 :=
  (Matrix.of ![c0, c1, c2, c3]).transpose

/-- `vec3_to_vec4` of a column vector: append `w = 0` (later overwritten to 1
for the translation column). -/
def v3col (v : V3) (w : ℝ) : Fin 4 → ℝ := ![v.x, v.y, v.z, w]

/-- `Surface::make_affine_transform`: columns are the three world-space basis
vectors and the origin, with the bottom-right entry set to 1. -/
def make_affine_transform (z_world x_world y_world origin_world : V3) : Mat4 :=
  colMat (v3col x_world 0) (v3col y_world 0) (v3col z_world 0) (v3col origin_world 1)

/-- `Surface::make_rigid_transform`: columns x, z×x, z, origin. -/
def make_rigid_transform (z_world x_world origin_world : V3) : Mat4 :=
  colMat (v3col x_world 0) (v3col (z_world.cross x_world) 0) (v3col z_world 0)
    (v3col origin_world 1)

open Classical in
/-- `nalgebra`'s `try_inverse`: the inverse when the matrix is invertible,
`None` otherwise. -/
noncomputable def try_inverse (m : Mat4) : Option Mat4 :=
  if m.det = 0 then none else some m⁻¹

/-- Matrix–vector product `DMat4 * DVec4`. -/
def mulV4 (m : Mat4) (v : V4) : V4 :=
  let r := m.mulVec ![v.x, v.y, v.z, v.w]
  ⟨r 0, r 1, r 2, r 3⟩

/-- Model of the external `nurbs::BSplineSurface` collaborator: only the two
operations the triangulator consumes. -/
structure BSplineSurfaceM where
  uv_from_point : V3 → V2
  surface_derivs : V2 → Fin 2 → Fin 2 → V3

/-- `Surface`: a parametric surface with a 3D→2D projection. -/
inductive Surface where
  | Cylinder (location axis : V3) (mat_i : Mat4) (radius : ℝ)
  | Plane (normal : V3) (mat_i : Mat4)
  | BSpline (surf : BSplineSurfaceM)

namespace Surface

/-- `Surface::new_cylinder` (the `expect` on inversion failure is a panic). -/
noncomputable def new_cylinder (axis ref_direction location : V3) (radius : ℝ) :
    Option Surface :=
  (try_inverse (make_rigid_transform axis ref_direction location)).map
    fun m => Surface.Cylinder location axis m radius

/-- `Surface::new_plane`. -/
noncomputable def new_plane (axis ref_direction location : V3) : Option Surface :=
  (try_inverse (make_rigid_transform axis ref_direction location)).map
    fun m => Surface.Plane axis m

/-- `Surface::lower`: project a 3D point to the surface's 2D space. -/
noncomputable def lower (s : Surface) (p : V3) : V2 :=
  let p4 := v4of p 1
  match s with
  | .Plane _ mat_i =>
      let q := mulV4 mat_i p4
      ⟨q.x, q.y⟩
  | .Cylinder _ _ mat_i radius =>
      let q := mulV4 mat_i p4
      -- sigmoid blending of z into the radius, avoiding the θ–z wrap seam
      let scale := 1 / (1 + Real.exp (-q.z / radius))
      ⟨q.x * scale, q.y * scale⟩
  | .BSpline surf => surf.uv_from_point p

/-- `Surface::normal`. -/
noncomputable def normal (s : Surface) (p : V3) (q : V2) : V3 :=
  match s with
  | .Plane n _ => n
  | .Cylinder location axis _ _ =>
      let proj := (p.sub location).dot axis
      let nearest := location.add (V3.smul proj axis)
      ((p.sub nearest).normalize).neg
  | .BSpline surf =>
      let d := surf.surface_derivs q
      (d 1 0).cross (d 0 1)

/-- `Surface::sign`: the empirical per-family winding fix
(false for planes, true for cylinders and B-splines). -/
def sign : Surface → Bool
  | .Plane _ _ => false
  | .Cylinder _ _ _ _ => true
  | .BSpline _ => true

end Surface

/-- The slice of the AP214 entity schema consumed by the triangulator
(`DataEntity` variants matched in the source; the leading string field of
each variant is never read and is omitted).  `other` stands for every
remaining variant of the autogenerated schema, which the triangulator
only meets in catch-all match arms. -/
inductive DataEntity where
  | AdvancedFace (bounds : List ℕ) (surface : ℕ) (same_sense : Bool)
  | FaceBound (bound : ℕ) (orientation : Bool)
  | EdgeLoop (edge_list : List ℕ)
  | VertexLoop (loop_vertex : ℕ)
  | OrientedEdge (element : ℕ) (orientation : Bool)
  | EdgeCurve (edge_start edge_end edge_geometry : ℕ) (same_sense : Bool)
  | VertexPoint (vertex_geometry : ℕ)
  | CartesianPoint (coordinates : List ℝ)
  | Direction (ratios : List ℝ)
  | Vector (orientation : ℕ) (magnitude : ℝ)
  | Axis2Placement3d (location axis ref_direction : ℕ)
  | Circle (position : ℕ) (radius : ℝ)
  | Line (pnt dir : ℕ)
  | Ellipse (position : ℕ) (semi_axis_1 semi_axis_2 : ℝ)
  | BSplineCurveWithKnots (degree : ℕ) (control_points_list : List ℕ)
      (closed_curve self_intersect : Bool)
      (knot_multiplicities : List ℤ) (knots : List ℝ)
  | Plane (position : ℕ)
  | CylindricalSurface (position : ℕ) (radius : ℝ)
  | ConicalSurface (position : ℕ) (radius semi_angle : ℝ)
  | BSplineSurfaceWithKnots (u_degree v_degree : ℕ)
      (control_points_list : List (List ℕ))
      (u_closed v_closed self_intersect : Bool)
      (u_multiplicities v_multiplicities : List ℤ)
      (u_knots v_knots : List ℝ)
  | other

/-- Outcome of the external constrained-triangulation engine, covering both
stages the source distinguishes: `Triangulation::new_with_edges` (whose `Err`
the source turns into a panic via `expect`) and `run()` (whose `Err` is
handled).  `ok` carries the `triangles()` index triples. -/
inductive CdtOutcome where
  | buildErr
  | runErr
  | ok (triangles : List (ℕ × ℕ × ℕ))

/-- External collaborators: the `cdt` triangulation engine and the `nurbs`
B-spline constructor (`KnotVector::from_multiplicities` folded into the
constructor's arguments). -/
structure Ext where
  engine : List (ℝ × ℝ) → List (ℕ × ℕ) → CdtOutcome
  mkBspline : Bool → Bool → (ℕ × List ℝ × List ℤ) → (ℕ × List ℝ × List ℤ) →
    List (List V3) → BSplineSurfaceM

/-- A mesh vertex. -/
structure Vertex where
  pos : V3
  norm : V3
  color : V3

/-- A mesh triangle: indices into the vertex buffer (`u32` in the source,
hence the `% 2^32` truncation at emission). -/
structure Triangle where
  verts : ℕ × ℕ × ℕ

/-- The accumulator state of `Triangulator`: the global vertex and triangle
buffers. -/
structure TriState where
  vertices : List Vertex
  triangles : List Triangle

/-- `Triangulator::entity`: index into the flat entity slice
(out of bounds panics). -/
def entity (data : List DataEntity) (i : ℕ) : Option DataEntity := data[i]?

/-- `Triangulator::vertex_point`: resolve a `CartesianPoint` to a `DVec3`
(the `v[0..2]` indexing panics when the coordinate list is too short). -/
def vertex_point (data : List DataEntity) (vertex_geometry : ℕ) : Option V3 :=
  match entity data vertex_geometry with
  | some (.CartesianPoint v) => do
      pure ⟨← v[0]?, ← v[1]?, ← v[2]?⟩
  | _ => none

/-- `Triangulator::vector`: scale a `Direction` by a magnitude. -/
def vector (data : List DataEntity) (orientation : ℕ) (magnitude : ℝ) : Option V3 :=
  match entity data orientation with
  | some (.Direction v) => do
      pure ⟨(← v[0]?) * magnitude, (← v[1]?) * magnitude, (← v[2]?) * magnitude⟩
  | _ => none

/-- `Triangulator::axis2_placement_3d`: resolve (location, axis,
ref_direction). -/
def axis2_placement_3d (data : List DataEntity) (location axis ref_direction : ℕ) :
    Option (V3 × V3 × V3) :=
  match entity data location, entity data axis, entity data ref_direction with
  | some (.CartesianPoint l), some (.Direction a), some (.Direction r) => do
      pure (⟨← l[0]?, ← l[1]?, ← l[2]?⟩, ⟨← a[0]?, ← a[1]?, ← a[2]?⟩,
        ⟨← r[0]?, ← r[1]?, ← r[2]?⟩)
  | _, _, _ => none

/-- `Triangulator::axis2_placement_3d_`: resolve an `Axis2Placement3d`
entity. -/
def axis2_placement_3d' (data : List DataEntity) (id : ℕ) : Option (V3 × V3 × V3) :=
  match entity data id with
  | some (.Axis2Placement3d location axis ref_direction) =>
      axis2_placement_3d data location axis ref_direction
  | _ => none

/-- `f64::EPSILON`. -/
noncomputable def f64_epsilon : ℝ := 2 ^ (-52 : ℤ)

/-- The direction resolution inlined in `Triangulator::line` (lines 404–407):
anything but a `Vector` panics. -/
def line_dir (data : List DataEntity) (dir : ℕ) : Option V3 :=
  match entity data dir with
  | some (.Vector o m) => vector data o m
  | _ => none

/-- The two `assert!`s of `Triangulator::line` (lines 408–415): re-expressing
each endpoint as a scalar offset along the direction and projecting back must
reproduce the endpoint within machine epsilon (squared distance below
`f64::EPSILON`). -/
noncomputable def line_check (u v p d : V3) : Prop :=
  V3.distance2 (p.add (V3.smul ((u.sub p).dot d) d)) u < f64_epsilon ∧
  V3.distance2 (p.add (V3.smul ((v.sub p).dot d) d)) v < f64_epsilon

open Classical in
/-- `Triangulator::line`: sample a line segment.  A failed consistency check
is a failed `assert!`, i.e. a panic. -/
noncomputable def line (data : List DataEntity) (u v : V3) (pnt dir : ℕ) :
    Option (List V3) :=
  match vertex_point data pnt, line_dir data dir with
  | some p, some d =>
      if line_check u v p d then
        -- Ignore pnt and dir, as we're using u/v instead
        some [u, v]
      else
        none
  | _, _ => none

open Classical in
/-- `f64::atan2` (mathematical atan2 convention). -/
noncomputable def atan2 (y x : ℝ) : ℝ :=
  if 0 < x then Real.arctan (y / x)
  else if x < 0 ∧ 0 ≤ y then Real.arctan (y / x) + Real.pi
  else if x < 0 then Real.arctan (y / x) - Real.pi
  else if 0 < y then Real.pi / 2
  else if y < 0 then -(Real.pi / 2)
  else 0

open Classical in
/-- The end-angle disambiguation of `Triangulator::ellipse` (lines 346–356):
a closed arc travels one full turn in the stated direction; otherwise the raw
end angle is shifted by one turn only if it lies on the wrong side of the
start angle. -/
noncomputable def adjust_angle (u_ang v_ang : ℝ) (closed dir : Bool) : ℝ :=
  if closed then
    (if dir then u_ang + 2 * Real.pi else u_ang - 2 * Real.pi)
  else if dir ∧ v_ang ≤ u_ang then v_ang + 2 * Real.pi
  else if (¬ dir) ∧ u_ang ≤ v_ang then v_ang - 2 * Real.pi
  else v_ang

/-- The sample count of `Triangulator::ellipse` (lines 358–361):
`max(4, round(64·span/2π))`, with Rust's `round` (half away from zero, which
for the non-negative span coincides with Mathlib's `round`). -/
noncomputable def ellipse_count (u_ang v_ang : ℝ) : ℕ :=
  max 4 (round (64 * |u_ang - v_ang| / (2 * Real.pi))).toNat

/-- The angle of the `i`-th sample of `Triangulator::ellipse` (lines 366–368):
linear interpolation between the start and (adjusted) end angles. -/
noncomputable def interp_angle (u_ang v_ang : ℝ) (count i : ℕ) : ℝ :=
  let frac : ℝ := (i : ℝ) / ((count - 1 : ℕ) : ℝ)
  u_ang * (1 - frac) + v_ang * frac

/-- Mapping an angle back through the ellipse-plane basis into 3D
(line 369 and 372). -/
noncomputable def eplane_lift (world_from_eplane : Mat4) (ang : ℝ) : V3 :=
  vec4_to_vec3 (mulV4 world_from_eplane ⟨Real.cos ang, Real.sin ang, 0, 1⟩)

/-- The sampling loop of `Triangulator::ellipse` (lines 345–376), starting
from the resolved start angle and raw end angle: adjust the end angle, pick
the sample count, emit the exact `u`, the interior interpolated samples, and
the exact `v`. -/
noncomputable def ellipse_from_angles (u v : V3) (world_from_eplane : Mat4)
    (u_ang v_ang_raw : ℝ) (closed dir : Bool) : List V3 :=
  let v_ang := adjust_angle u_ang v_ang_raw closed dir
  let count := ellipse_count u_ang v_ang
  -- Walk around the circle, using the true positions for start and
  -- end points to improve numerical accuracy.
  u :: ((List.range (count - 2)).map fun j =>
    eplane_lift world_from_eplane (interp_angle u_ang v_ang count (j + 1))) ++ [v]

/-- `Triangulator::ellipse`: build the ellipse-plane basis, invert it (a
failed inversion is an `expect` panic), express the endpoints as angles, and
sample. -/
noncomputable def ellipse (data : List DataEntity) (u v : V3) (position : ℕ)
    (radius1 radius2 : ℝ) (closed dir : Bool) : Option (List V3) := do
  let (location, axis, ref_direction) ← axis2_placement_3d' data position
  -- Build a rotation matrix to go from flat (XY) to 3D space
  let world_from_eplane := make_affine_transform axis
    (V3.smul radius1 ref_direction)
    (V3.smul radius2 (axis.cross ref_direction))
    location
  let eplane_from_world ← try_inverse world_from_eplane
  -- Project from 3D into the "ellipse plane"
  let u_eplane := mulV4 eplane_from_world (v4of u 1)
  let v_eplane := mulV4 eplane_from_world (v4of v 1)
  let u_ang := atan2 u_eplane.y u_eplane.x
  let v_ang := atan2 v_eplane.y v_eplane.x
  pure (ellipse_from_angles u v world_from_eplane u_ang v_ang closed dir)

/-- `Triangulator::edge_curve`: resolve the two endpoint vertices and
dispatch on the curve geometry.  A `BSplineCurveWithKnots` is skipped with a
diagnostic, yielding the empty sample list; an unknown geometry panics. -/
noncomputable def edge_curve (data : List DataEntity)
    (edge_start edge_end edge_geometry : ℕ) (same_sense flip : Bool) :
    Option (List V3) := do
  let u ← match entity data edge_start with
          | some (.VertexPoint i) => vertex_point data i
          | _ => none
  let v ← match entity data edge_end with
          | some (.VertexPoint i) => vertex_point data i
          | _ => none
  match entity data edge_geometry with
  | some (.Circle position radius) =>
      ellipse data u v position radius radius (edge_start == edge_end)
        (Bool.xor same_sense flip)
  | some (.Line pnt dir) => line data u v pnt dir
  | some (.Ellipse position radius1 radius2) =>
      ellipse data u v position radius1 radius2 (edge_start == edge_end)
        (Bool.xor same_sense flip)
  | some (.BSplineCurveWithKnots _ _ _ _ _ _) =>
      -- eprintln!("Skipping BSpline Curve")
      pure []
  | _ => none

/-- `Triangulator::oriented_edge`: swap start/end when the orientation flag
is false, and pass `flip = !orientation` down to the sampler. -/
noncomputable def oriented_edge (data : List DataEntity) (element : ℕ)
    (orientation : Bool) : Option (List V3) :=
  match entity data element with
  | some (.EdgeCurve edge_start edge_end edge_geometry same_sense) =>
      edge_curve data
        (if orientation then edge_start else edge_end)
        (if orientation then edge_end else edge_start)
        edge_geometry same_sense (!orientation)
  | _ => none

/-- The loop body of `Triangulator::edge_loop`: on every iteration but the
first, drop the last accumulated point (it duplicates the next edge's first
point), then append the oriented edge's samples. -/
noncomputable def edge_loop_go (data : List DataEntity) (out : List V3)
    (first : Bool) : List ℕ → Option (List V3)
  | [] => pure out
  | e :: rest => do
      let out := if first then out else out.dropLast
      match entity data e with
      | some (.OrientedEdge element orientation) => do
          let o ← oriented_edge data element orientation
          edge_loop_go data (out ++ o) false rest
      | _ => none

/-- `Triangulator::edge_loop`. -/
noncomputable def edge_loop (data : List DataEntity) (edge_list : List ℕ) :
    Option (List V3) :=
  edge_loop_go data [] true edge_list

/-- `Triangulator::face_bounds`: an `EdgeLoop` is walked (and reversed when
the bound's orientation is false); a `VertexLoop` yields its single vertex;
anything else panics. -/
noncomputable def face_bounds (data : List DataEntity) (bound : ℕ)
    (orientation : Bool) : Option (List V3) :=
  match entity data bound with
  | some (.EdgeLoop edge_list) =>
      (edge_loop data edge_list).map fun d => if orientation then d else d.reverse
  | some (.VertexLoop loop_vertex) =>
      match entity data loop_vertex with
      | some (.VertexPoint i) => (vertex_point data i).map fun u => [u]
      | _ => none
  | _ => none

/-- `Triangulator::get_control_points`. -/
def get_control_points (data : List DataEntity) (c : List (List ℕ)) :
    Option (List (List V3)) :=
  c.mapM fun v => v.mapM (vertex_point data)

/-- `Triangulator::get_surface`: `none` is a panic, `some none` is the
"could not get surface" diagnostic (the face is skipped), `some (some s)` is
a resolved surface.  Cones are treated as planes.  The B-spline branch
asserts non-closed, non-self-intersecting inputs and delegates construction
to the external `nurbs` crate. -/
noncomputable def get_surface (data : List DataEntity) (ext : Ext) (surface : ℕ) :
    Option (Option Surface) :=
  match entity data surface with
  | none => none  -- out-of-bounds entity lookup: panic
  | some (.CylindricalSurface position radius) => do
      let (location, axis, ref_direction) ← axis2_placement_3d' data position
      let s ← Surface.new_cylinder axis ref_direction location radius
      pure (some s)
  | some (.Plane position) => do
      let (location, axis, ref_direction) ← axis2_placement_3d' data position
      let s ← Surface.new_plane axis ref_direction location
      pure (some s)
  | some (.ConicalSurface position _ _) => do
      let (location, axis, ref_direction) ← axis2_placement_3d' data position
      let s ← Surface.new_plane axis ref_direction location
      pure (some s)
  | some (.BSplineSurfaceWithKnots u_degree v_degree control_points_list
      u_closed v_closed self_intersect u_multiplicities v_multiplicities
      u_knots v_knots) =>
      if u_closed ∨ v_closed ∨ self_intersect then none  -- assert! panics
      else do
        let cps ← get_control_points data control_points_list
        pure (some (.BSpline (ext.mkBspline (!u_closed) (!v_closed)
          (u_degree, u_knots, u_multiplicities)
          (v_degree, v_knots, v_multiplicities) cps)))
  | _ => pure none  -- eprintln!("Could not get surface ...")

/-- Per-face accumulation state inside `advanced_face`: the 2D point buffer,
the constraint edge buffer, and the global vertex buffer (which the face
appends to, and pops from, directly). -/
abbrev FaceAcc := List (ℝ × ℝ) × List (ℕ × ℕ) × List Vertex

/-- The `for pt in bc` loop of `advanced_face` (lines 111–125): for each
point, push the edge `(pts.len(), pts.len()+1)` first, then the projected 2D
point, then the 3D vertex. -/
noncomputable def loop_push (s : Surface) : FaceAcc → List V3 → FaceAcc
  | acc, [] => acc
  | (pts, edges, verts), pt :: rest =>
      let proj := s.lower pt
      loop_push s
        (pts ++ [(proj.x, proj.y)],
         edges ++ [(pts.length, pts.length + 1)],
         verts ++ [⟨pt, s.normal pt proj, ⟨0, 0, 0⟩⟩])
        rest

/-- Lines 92–135 of `advanced_face`, processing one resolved bound contour
`bc`: a single-point contour becomes a Steiner point with no edges; otherwise
the contour is pushed, the duplicate closing point popped again, the last
edge popped, and the new last edge rewired back to the contour's start index
(`unwrap` panics when no edge is left). -/
noncomputable def process_loop (s : Surface) (acc : FaceAcc) (bc : List V3) :
    Option FaceAcc :=
  let (pts, edges, verts) := acc
  if bc.length = 1 then do
    let p ← bc[0]?
    let proj := s.lower p
    pure (pts ++ [(proj.x, proj.y)], edges,
      verts ++ [⟨p, s.normal p proj, ⟨0, 0, 0⟩⟩])
  else
    let (pts', edges', verts') := loop_push s (pts, edges, verts) bc
    -- the last point duplicates the first: pop it (and its vertex and edge)
    let pts'' := pts'.dropLast
    let verts'' := verts'.dropLast
    let edges'' := edges'.dropLast
    match edges''.getLast? with
    | none => none  -- edges.last_mut().unwrap() panics
    | some e => some (pts'', edges''.dropLast ++ [(e.1, pts.length)], verts'')

/-- One iteration of the `for b in bounds` loop of `advanced_face`
(lines 88–138): anything but a `FaceBound` panics. -/
noncomputable def process_bound (data : List DataEntity) (s : Surface)
    (acc : FaceAcc) (b : ℕ) : Option FaceAcc :=
  match entity data b with
  | some (.FaceBound bound orientation) => do
      let bc ← face_bounds data bound orientation
      process_loop s acc bc
  | _ => none

/-- The full bound-collection loop of `advanced_face`. -/
noncomputable def process_bounds (data : List DataEntity) (s : Surface)
    (acc : FaceAcc) (bounds : List ℕ) : Option FaceAcc :=
  bounds.foldlM (process_bound data s) acc

/-- Triangle emission (lines 143–153): translate local indices by the face's
starting offset (with the `as u32` truncation) and choose the winding order
from `same_sense XOR surface.sign()`. -/
def emit_tri (offset : ℕ) (same_sense : Bool) (s : Surface) (t : ℕ × ℕ × ℕ) :
    Triangle :=
  let a := (t.1 + offset) % 2 ^ 32
  let b := (t.2.1 + offset) % 2 ^ 32
  let c := (t.2.2 + offset) % 2 ^ 32
  if Bool.xor same_sense s.sign then ⟨(a, b, c)⟩ else ⟨(a, c, b)⟩

/-- `advanced_face` after the surface has been resolved (lines 81, 86–160):
collect the bounds, hand the 2D points and constraint edges to the engine,
and on success append the winding-corrected triangles.  A build failure of
the engine is an `expect` panic; a `run()` failure only logs (and dumps a
debug SVG), leaving the triangle buffer untouched. -/
noncomputable def advanced_face_with_surface (data : List DataEntity) (ext : Ext)
    (st : TriState) (bounds : List ℕ) (s : Surface) (same_sense : Bool) :
    Option TriState := do
  let offset := st.vertices.length
  let (pts, edges, verts) ← process_bounds data s ([], [], st.vertices) bounds
  match ext.engine pts edges with
  | .buildErr => none
  | .runErr => pure ⟨verts, st.triangles⟩
  | .ok tris => pure ⟨verts, st.triangles ++ tris.map (emit_tri offset same_sense s)⟩

/-- `Triangulator::advanced_face`.  (The source records the vertex-buffer
offset before resolving the surface; surface resolution does not touch the
buffers, so recording it afterwards is equivalent.) -/
noncomputable def advanced_face (data : List DataEntity) (ext : Ext)
    (st : TriState) (bounds : List ℕ) (surface : ℕ) (same_sense : Bool) :
    Option TriState := do
  match ← get_surface data ext surface with
  | none => pure st      -- unresolved surface: skip the face
  | some s => advanced_face_with_surface data ext st bounds s same_sense

/-- One iteration of `Triangulator::triangulate`'s entity loop: only
`AdvancedFace` entities are processed. -/
noncomputable def process_entity (data : List DataEntity) (ext : Ext)
    (st : TriState) (e : DataEntity) : Option TriState :=
  match e with
  | .AdvancedFace bounds surface same_sense =>
      advanced_face data ext st bounds surface same_sense
  | _ => pure st

/-- The entity loop of `Triangulator::triangulate` over a list of entities. -/
noncomputable def process_entities (data : List DataEntity) (ext : Ext)
    (st : TriState) (es : List DataEntity) : Option TriState :=
  es.foldlM (process_entity data ext) st

/-- `Triangulator::run` / `triangulate`: process every entity of the file,
starting from empty buffers. -/
noncomputable def run_triangulate (data : List DataEntity) (ext : Ext) :
    Option TriState :=
  process_entities data ext ⟨[], []⟩ data

/-- Little-endian byte encoding of a `u32`. -/
def u32le (n : ℕ) : List ℕ :=
  [n % 256, n / 256 % 256, n / 2 ^ 16 % 256, n / 2 ^ 24 % 256]

/-- The per-triangle record of `save_stl` (lines 51–60): 12 zero normal
bytes, the three vertices' coordinates (each encoded to 4 bytes by the
`f64`→`f32` little-endian conversion `enc`, which is kept abstract because
bit-level float conversion is outside the real-number model), and 2 zero
attribute bytes.  Vertex lookup panics when an index is out of bounds. -/
def stl_triangle_bytes (vertices : List Vertex) (enc : ℝ → List ℕ)
    (t : Triangle) : Option (List ℕ) := do
  let va ← vertices[t.verts.1]?
  let vb ← vertices[t.verts.2.1]?
  let vc ← vertices[t.verts.2.2]?
  pure (List.replicate 12 0 ++
    (enc va.pos.x ++ enc va.pos.y ++ enc va.pos.z) ++
    (enc vb.pos.x ++ enc vb.pos.y ++ enc vb.pos.z) ++
    (enc vc.pos.x ++ enc vc.pos.y ++ enc vc.pos.z) ++
    List.replicate 2 0)

/-- `Triangulator::save_stl`, up to the final file write: 80 header bytes
(`'x'` = 120), the `u32` little-endian triangle count (the `try_into`
`expect` panics when the count exceeds the 32-bit range), then one 50-byte
record per triangle. -/
def save_stl (vertices : List Vertex) (triangles : List Triangle)
    (enc : ℝ → List ℕ) : Option (List ℕ) :=
  if triangles.length < 2 ^ 32 then do
    let body ← triangles.mapM (stl_triangle_bytes vertices enc)
    pure (List.replicate 80 120 ++ u32le triangles.length ++ body.flatten)
  else
    none

/-! ### Derived descriptions of the per-contour buffers -/

/-- The 2D projections pushed for a contour. -/
noncomputable def contour_pts (s : Surface) (bc : List V3) : List (ℝ × ℝ) :=
  bc.map fun p => ((s.lower p).x, (s.lower p).y)

/-- The 3D vertices pushed for a contour. -/
noncomputable def contour_verts (s : Surface) (bc : List V3) : List Vertex :=
  bc.map fun p => ⟨p, s.normal p (s.lower p), ⟨0, 0, 0⟩⟩

/-- A single closed cycle of `n` constraint edges over the indices
`start, start+1, …, start+n-1`, the last edge returning to `start`. -/
def cycle_edges (start n : ℕ) : List (ℕ × ℕ) :=
  (List.range n).map fun i => (start + i, if i = n - 1 then start else start + i + 1)

lemma loop_push_eq (s : Surface) (pts : List (ℝ × ℝ)) (edges : List (ℕ × ℕ))
    (verts : List Vertex) (bc : List V3) :
    loop_push s (pts, edges, verts) bc =
      (pts ++ contour_pts s bc,
       edges ++ (List.range bc.length).map (fun i => (pts.length + i, pts.length + i + 1)),
       verts ++ contour_verts s bc) := by
  induction bc generalizing pts edges verts with
  | nil => simp [loop_push, contour_pts, contour_verts]
  | cons p rest ih =>
    rw [loop_push, ih]
    refine Prod.ext ?_ (Prod.ext ?_ ?_)
    · simp [contour_pts]
    · simp only [List.length_cons, List.length_nil, List.range_succ_eq_map,
        List.map_cons, List.map_map, List.append_assoc, List.singleton_append,
        List.length_append, List.length_singleton, Nat.add_zero, Nat.zero_add]
      refine congrArg (edges ++ ·) ?_
      refine congrArg₂ List.cons rfl ?_
      refine List.map_eq_map_iff.mpr ?_
      intro i _
      simp only [Function.comp_apply, Prod.mk.injEq]
      omega
    · simp [contour_verts]

/-- For a contour of `n ≥ 2` points, `process_loop` always succeeds and the
appended structures are: the projections of the contour minus its duplicate
closing point, the cycle of `n-1` constraint edges starting at the contour's
start index, and the corresponding 3D vertices. -/
lemma process_loop_eq_of_two_le (s : Surface) (pts : List (ℝ × ℝ))
    (edges : List (ℕ × ℕ)) (verts : List Vertex) (bc : List V3)
    (h : 2 ≤ bc.length) :
    process_loop s (pts, edges, verts) bc =
      some (pts ++ contour_pts s bc.dropLast,
            edges ++ cycle_edges pts.length (bc.length - 1),
            verts ++ contour_verts s bc.dropLast) := by
  have hne : bc.length ≠ 1 := by omega
  rw [process_loop]
  simp only [hne, if_false, loop_push_eq]
  have hbc : bc ≠ [] := by
    intro hnil; rw [hnil] at h; simp at h
  -- lengths
  obtain ⟨n, hn⟩ : ∃ n, bc.length = n + 2 := ⟨bc.length - 2, by omega⟩
  -- the three dropLast computations
  have hpts : (pts ++ contour_pts s bc).dropLast = pts ++ contour_pts s bc.dropLast := by
    rw [List.dropLast_append_of_ne_nil _ (by simp [contour_pts, hbc]),
      contour_pts, contour_pts, ← List.map_dropLast]
  have hverts : (verts ++ contour_verts s bc).dropLast
      = verts ++ contour_verts s bc.dropLast := by
    rw [List.dropLast_append_of_ne_nil _ (by simp [contour_verts, hbc]),
      contour_verts, contour_verts, ← List.map_dropLast]
  have hrange : ∀ (m : ℕ), ((List.range (m + 1)).map
      (fun i => (pts.length + i, pts.length + i + 1))).dropLast
      = (List.range m).map (fun i => (pts.length + i, pts.length + i + 1)) := by
    intro m
    rw [← List.map_dropLast]
    congr 1
    rw [List.range_succ, List.dropLast_concat]
  have hedges : (edges ++ (List.range bc.length).map
      (fun i => (pts.length + i, pts.length + i + 1))).dropLast
      = edges ++ (List.range (n + 1)).map
          (fun i => (pts.length + i, pts.length + i + 1)) := by
    rw [List.dropLast_append_of_ne_nil _ (by simp [hn]), hn, hrange]
  rw [hpts, hverts, hedges]
  have hlast : (edges ++ (List.range (n + 1)).map
      (fun i => (pts.length + i, pts.length + i + 1))).getLast?
      = some (pts.length + n, pts.length + n + 1) := by
    rw [List.getLast?_append_of_ne_nil _ (by simp)]
    rw [List.range_succ]
    simp
  rw [hlast]
  simp only [Option.some.injEq]
  refine Prod.ext (by simp) (Prod.ext ?_ (by simp))
  -- the edge buffer: drop the last pushed edge and rewire to the start
  have hdrop : (edges ++ (List.range (n + 1)).map
      (fun i => (pts.length + i, pts.length + i + 1))).dropLast
      = edges ++ (List.range n).map
          (fun i => (pts.length + i, pts.length + i + 1)) := by
    rw [List.dropLast_append_of_ne_nil _ (by simp), hrange]
  rw [hdrop]
  show edges ++ (List.range n).map _ ++ [(pts.length + n, pts.length)]
      = edges ++ cycle_edges pts.length (bc.length - 1)
  rw [List.append_assoc]
  congr 1
  rw [cycle_edges]
  have : bc.length - 1 = n + 1 := by omega
  rw [this, List.range_succ, List.map_append]
  congr 1
  · apply List.map_congr_left
    intro i hi
    have hil : i < n := List.mem_range.mp hi
    have hin : i ≠ n + 1 - 1 := by omega
    rw [if_neg hin]
  · simp

lemma cycle_edges_fst (start n : ℕ) :
    (cycle_edges start n).map Prod.fst = List.range' start n := by
  rw [cycle_edges, List.map_map]
  rw [List.range'_eq_map_range]
  apply List.map_congr_left
  intro i _
  simp

/-- Claim C2 — for every boundary loop with at least 2 points, `process_loop`
succeeds, drops the duplicate closing point, and appends constraint edges
forming exactly one cycle over the newly added point indices
`start … start+n-2`: the edge sources visit each new index exactly once in
order, each edge steps to the next index, and the last edge returns to the
loop's start index. -/
theorem loop_closure_spec (s : Surface) (pts : List (ℝ × ℝ))
    (edges : List (ℕ × ℕ)) (verts : List Vertex) (bc : List V3)
    (h : 2 ≤ bc.length) :
    process_loop s (pts, edges, verts) bc =
      some (pts ++ contour_pts s bc.dropLast,
            edges ++ cycle_edges pts.length (bc.length - 1),
            verts ++ contour_verts s bc.dropLast) ∧
    (contour_pts s bc.dropLast).length = bc.length - 1 ∧
    (cycle_edges pts.length (bc.length - 1)).map Prod.fst
      = List.range' pts.length (bc.length - 1) ∧
    ((cycle_edges pts.length (bc.length - 1)).map Prod.fst).Nodup ∧
    (∀ i, i + 1 < bc.length - 1 →
      (cycle_edges pts.length (bc.length - 1))[i]?
        = some (pts.length + i, pts.length + i + 1)) ∧
    (cycle_edges pts.length (bc.length - 1)).getLast?
      = some (pts.length + (bc.length - 2), pts.length) := by
  refine ⟨process_loop_eq_of_two_le s pts edges verts bc h, ?_, cycle_edges_fst _ _,
    ?_, ?_, ?_⟩
  · simp [contour_pts]
  · rw [cycle_edges_fst]; exact List.nodup_range' _ _
  · intro i hi
    rw [cycle_edges]
    rw [List.getElem?_map]
    rw [List.getElem?_range (by omega)]
    have hin : i ≠ bc.length - 1 - 1 := by omega
    simp [hin]
  · rw [cycle_edges]
    obtain ⟨m, hm⟩ : ∃ m, bc.length - 1 = m + 1 := ⟨bc.length - 2, by omega⟩
    rw [hm, List.range_succ, List.map_append]
    rw [List.getLast?_append_of_ne_nil _ (by simp)]
    have h2 : bc.length - 2 = m := by omega
    simp [h2]

/-- Witness for C2 at a concrete three-point contour. -/
theorem loop_closure_spec_witness :
    (2 ≤ ([⟨0,0,0⟩, ⟨1,0,0⟩, ⟨0,1,0⟩] : List V3).length) ∧
    (cycle_edges 0 2).map Prod.fst = List.range' 0 2 := by
  refine ⟨by decide, ?_⟩
  exact (loop_closure_spec (Surface.Plane ⟨0,0,1⟩ 1) [] [] []
    [⟨0,0,0⟩, ⟨1,0,0⟩, ⟨0,1,0⟩] (by decide)).2.2.1

/-- Claim C7 — the line sampler returns exactly the two-element sequence
`[u, v]` whenever it returns at all; when the endpoint re-projection
consistency check fails, the result is a fatal assertion (panic), not a
recoverable value. -/
theorem line_sampler_spec (data : List DataEntity) (u v : V3) (pnt dir : ℕ) :
    (∀ l, line data u v pnt dir = some l → l = [u, v]) ∧
    (∀ p d, vertex_point data pnt = some p → line_dir data dir = some d →
      (line_check u v p d → line data u v pnt dir = some [u, v]) ∧
      (¬ line_check u v p d → line data u v pnt dir = none)) := by
  constructor
  · intro l hl
    unfold line at hl
    split at hl
    · split at hl
      · exact (Option.some_injective _ hl).symm
      · simp at hl
    · simp at hl
  · intro p d hp hd
    constructor
    · intro hc
      unfold line
      simp only [hp, hd]
      rw [if_pos hc]
    · intro hc
      unfold line
      simp only [hp, hd]
      rw [if_neg hc]

/-- Entity fixture for the C7 witness: a point at the origin and a unit
direction along x. -/
def wit_line_data : List DataEntity :=
  [.CartesianPoint [0, 0, 0], .Vector 2 1, .Direction [1, 0, 0]]

/-- Witness for C7: the spec's own test case — `u = (0,0,0)`, `v = (1,0,0)`,
a line through the origin with direction `(1,0,0)` — samples to exactly
`[u, v]`. -/
theorem line_sampler_spec_witness :
    line wit_line_data ⟨0,0,0⟩ ⟨1,0,0⟩ 0 1 = some [⟨0,0,0⟩, ⟨1,0,0⟩] := by
  have h := (line_sampler_spec wit_line_data ⟨0,0,0⟩ ⟨1,0,0⟩ 0 1).2
    ⟨0,0,0⟩ ⟨1*1,0*1,0*1⟩ rfl rfl
  refine h.1 ?_
  constructor <;>
  · simp only [line_check, V3.distance2, V3.sub, V3.dot, V3.add, V3.smul,
      f64_epsilon]
    norm_num

/-- Claim C8 — (i) the oriented edge swaps the edge curve's start/end
vertices exactly when its orientation flag is false and passes
`flip = !orientation` on; (ii) for a circle (and likewise an ellipse)
geometry the sampler is invoked with direction flag
`same_sense XOR flip = same_sense XOR (not orientation)`; (iii) a face bound
with orientation flag false reverses the loop's entire assembled point list
before use. -/
theorem orientation_flags_spec (data : List DataEntity) :
    (∀ element es ee g ss o,
      entity data element = some (.EdgeCurve es ee g ss) →
      oriented_edge data element o =
        edge_curve data (if o then es else ee) (if o then ee else es) g ss (!o)) ∧
    (∀ es ee g ss flip pos r iu iv u v,
      entity data g = some (.Circle pos r) →
      entity data es = some (.VertexPoint iu) → vertex_point data iu = some u →
      entity data ee = some (.VertexPoint iv) → vertex_point data iv = some v →
      edge_curve data es ee g ss flip
        = ellipse data u v pos r r (es == ee) (Bool.xor ss flip)) ∧
    (∀ bound edge_list,
      entity data bound = some (.EdgeLoop edge_list) →
      face_bounds data bound false = (edge_loop data edge_list).map List.reverse ∧
      face_bounds data bound true = edge_loop data edge_list) := by
  refine ⟨?_, ?_, ?_⟩
  · intro element es ee g ss o h
    unfold oriented_edge
    simp only [h]
  · intro es ee g ss flip pos r iu iv u v hg hes hu hee hv
    unfold edge_curve
    simp only [hes, hu, hee, hv, hg, Option.bind_eq_bind, Option.some_bind]
  · intro bound edge_list h
    unfold face_bounds
    simp only [h]
    constructor
    · simp
    · simp

/-- Entity fixture for the C8 witness. -/
def wit_oe_data : List DataEntity :=
  [.EdgeCurve 1 2 3 true, .VertexPoint 4, .VertexPoint 5, .Circle 6 1,
   .CartesianPoint [0, 0, 0], .CartesianPoint [1, 0, 0], .other, .EdgeLoop []]

/-- Witness for C8 at a concrete entity store. -/
theorem orientation_flags_spec_witness :
    (oriented_edge wit_oe_data 0 false = edge_curve wit_oe_data 2 1 3 true true) ∧
    (edge_curve wit_oe_data 1 2 3 true true
      = ellipse wit_oe_data ⟨0,0,0⟩ ⟨1,0,0⟩ 6 1 1 false false) ∧
    (face_bounds wit_oe_data 7 false
      = (edge_loop wit_oe_data []).map List.reverse) := by
  refine ⟨?_, ?_, ?_⟩
  · exact (orientation_flags_spec wit_oe_data).1 0 1 2 3 true false rfl
  · exact (orientation_flags_spec wit_oe_data).2.1 1 2 3 true true 6 1 4 5
      ⟨0,0,0⟩ ⟨1,0,0⟩ rfl rfl rfl rfl rfl
  · exact ((orientation_flags_spec wit_oe_data).2.2 7 [] rfl).1

/-- Entity store exhibiting the B-spline-curve crash (claim C3): an
`AdvancedFace` whose single `FaceBound`'s `EdgeLoop` consists of one
`OrientedEdge` whose `EdgeCurve` geometry is a `BSplineCurveWithKnots`. -/
def wit_bspline_data : List DataEntity :=
  [.AdvancedFace [1] 99 true,
   .FaceBound 2 true,
   .EdgeLoop [3],
   .OrientedEdge 4 true,
   .EdgeCurve 5 5 6 true,
   .VertexPoint 7,
   .BSplineCurveWithKnots 3 [] false false [] [],
   .CartesianPoint [0, 0, 0]]

/-- Claim C3 — refuted on the code: the sampler does return an empty
sequence for a free-form (B-spline) boundary curve, but a face whose loop
assembles to that empty sequence panics (`edges.last_mut().unwrap()` on an
empty edge buffer), crashing the whole run instead of skipping the face.
This holds for every engine and every surface assignment of the face. -/
theorem bspline_curve_crash (ext : Ext) :
    edge_curve wit_bspline_data 5 5 6 true false = some [] ∧
    face_bounds wit_bspline_data 2 true = some [] ∧
    advanced_face_with_surface wit_bspline_data ext ⟨[], []⟩ [1]
      (Surface.Plane ⟨0,0,1⟩ 1) true = none := by
  refine ⟨rfl, rfl, rfl⟩

/-- Claim C1 — when the engine succeeds, every output triangle `(a, b, c)` is
appended to the global triangle buffer with its local indices offset by the
face's starting offset in the global vertex buffer (under the `as u32`
truncation), in the order `(a, b, c)` when `same_sense XOR surface.sign()` is
true and `(a, c, b)` otherwise; and `sign()` is false for planes, true for
cylinders and B-spline surfaces. -/
theorem winding_order_spec (data : List DataEntity) (ext : Ext) (st : TriState)
    (bounds : List ℕ) (s : Surface) (same_sense : Bool)
    (pts : List (ℝ × ℝ)) (edges : List (ℕ × ℕ)) (verts : List Vertex)
    (tris : List (ℕ × ℕ × ℕ))
    (hb : process_bounds data s ([], [], st.vertices) bounds = some (pts, edges, verts))
    (he : ext.engine pts edges = .ok tris) :
    (advanced_face_with_surface data ext st bounds s same_sense =
      some ⟨verts, st.triangles ++ tris.map (fun t =>
        if Bool.xor same_sense s.sign then
          ⟨((t.1 + st.vertices.length) % 2 ^ 32,
            (t.2.1 + st.vertices.length) % 2 ^ 32,
            (t.2.2 + st.vertices.length) % 2 ^ 32)⟩
        else
          ⟨((t.1 + st.vertices.length) % 2 ^ 32,
            (t.2.2 + st.vertices.length) % 2 ^ 32,
            (t.2.1 + st.vertices.length) % 2 ^ 32)⟩)⟩) ∧
    (∀ n m, (Surface.Plane n m).sign = false) ∧
    (∀ l a m r, (Surface.Cylinder l a m r).sign = true) ∧
    (∀ b, (Surface.BSpline b).sign = true) := by
  refine ⟨?_, fun _ _ => rfl, fun _ _ _ _ => rfl, fun _ => rfl⟩
  unfold advanced_face_with_surface
  simp only [hb, Option.bind_eq_bind, Option.some_bind, he]
  rfl

/-- Entity fixture shared by the face-level witnesses: an `AdvancedFace`
whose single bound is a one-vertex `VertexLoop` (cone-apex Steiner point). -/
def wit_face_data : List DataEntity :=
  [.AdvancedFace [1] 99 true,
   .FaceBound 2 true,
   .VertexLoop 3,
   .VertexPoint 4,
   .CartesianPoint [0, 0, 0]]

/-- Trivial model of the external B-spline surface, for witness `Ext`s. -/
def wit_bspline_m : BSplineSurfaceM := ⟨fun _ => ⟨0, 0⟩, fun _ _ _ => ⟨0, 0, 0⟩⟩

/-- Witness `Ext` whose engine always succeeds with one (degenerate)
triangle. -/
def wit_ext_ok : Ext := ⟨fun _ _ => .ok [(0, 0, 0)], fun _ _ _ _ _ => wit_bspline_m⟩

/-- Witness `Ext` whose engine always rejects its input at the `run()`
stage. -/
def wit_ext_err : Ext := ⟨fun _ _ => .runErr, fun _ _ _ _ _ => wit_bspline_m⟩

/-- The plane surface (identity inverse transform) used by the face-level
witnesses. -/
def wit_plane : Surface := .Plane ⟨0, 0, 1⟩ 1

/-- Witness for C1: a plane face with one Steiner vertex and an engine
returning one triangle; `same_sense XOR sign = true XOR false` keeps the
`(a, b, c)` order. -/
theorem winding_order_spec_witness :
    ∃ pts edges verts,
      process_bounds wit_face_data wit_plane ([], [], ([] : List Vertex)) [1]
        = some (pts, edges, verts) ∧
      wit_ext_ok.engine pts edges = .ok [(0, 0, 0)] ∧
      advanced_face_with_surface wit_face_data wit_ext_ok ⟨[], []⟩ [1]
        wit_plane true = some ⟨verts, [⟨(0, 0, 0)⟩]⟩ := by
  refine ⟨_, _, _, rfl, rfl, ?_⟩
  have h := (winding_order_spec wit_face_data wit_ext_ok ⟨[], []⟩ [1]
    wit_plane true _ _ _ [(0, 0, 0)] rfl rfl).1
  rw [h]
  rfl

lemma prefix_dropLast {α : Type} {l₁ l₂ : List α} (h : l₁ <+: l₂)
    (hlt : l₁.length < l₂.length) : l₁ <+: l₂.dropLast := by
  obtain ⟨t, rfl⟩ := h
  have ht : t ≠ [] := by
    intro hnil
    rw [hnil] at hlt
    simp at hlt
  rw [List.dropLast_append_of_ne_nil _ ht]
  exact List.prefix_append _ _

lemma cycle_edges_length (start n : ℕ) : (cycle_edges start n).length = n := by
  simp [cycle_edges]

/-- The vertex-buffer invariant through one contour: the base buffer stays a
prefix, and the number of accumulated constraint edges never exceeds the
number of vertices added past the base (so the duplicate-closing-point pops
can never reach below the base). -/
lemma process_loop_inv (s : Surface) (pts : List (ℝ × ℝ)) (edges : List (ℕ × ℕ))
    (verts : List Vertex) (bc : List V3) (acc' : FaceAcc) (base : List Vertex)
    (h : process_loop s (pts, edges, verts) bc = some acc')
    (hpre : base <+: verts) (hlen : base.length + edges.length ≤ verts.length) :
    base <+: acc'.2.2 ∧ base.length + acc'.2.1.length ≤ acc'.2.2.length := by
  match bc with
  | [] =>
    rw [show process_loop s (pts, edges, verts) [] =
      (match edges.dropLast.getLast? with
       | none => none
       | some e => some (pts.dropLast,
           edges.dropLast.dropLast ++ [(e.1, pts.length)], verts.dropLast))
      from rfl] at h
    rcases hg : edges.dropLast.getLast? with _ | e
    · rw [hg] at h
      simp at h
    · rw [hg] at h
      cases h
      have hne : edges.dropLast ≠ [] := by
        intro hnil
        rw [hnil] at hg
        simp at hg
      have h2 : 2 ≤ edges.length := by
        have := List.length_pos.mpr hne
        rw [List.length_dropLast] at this
        omega

      refine ⟨prefix_dropLast hpre (by omega), ?_⟩
      simp only [List.length_append, List.length_dropLast, List.length_singleton]
      omega
  | [p] =>
    rw [show process_loop s (pts, edges, verts) [p] =
      some (pts ++ [((s.lower p).x, (s.lower p).y)], edges,
        verts ++ [⟨p, s.normal p (s.lower p), ⟨0, 0, 0⟩⟩]) from rfl] at h
    cases h
    refine ⟨hpre.trans (List.prefix_append _ _), ?_⟩
    simp only [List.length_append, List.length_singleton]
    omega
  | p :: q :: rest =>
    rw [process_loop_eq_of_two_le s pts edges verts (p :: q :: rest)
      (by simp)] at h
    cases h
    refine ⟨hpre.trans (List.prefix_append _ _), ?_⟩
    simp only [List.length_append, cycle_edges_length, contour_verts,
      List.length_map, List.length_dropLast, List.length_cons]
    omega

lemma process_bound_inv (data : List DataEntity) (s : Surface)
    (pts : List (ℝ × ℝ)) (edges : List (ℕ × ℕ)) (verts : List Vertex) (b : ℕ)
    (acc' : FaceAcc) (base : List Vertex)
    (h : process_bound data s (pts, edges, verts) b = some acc')
    (hpre : base <+: verts) (hlen : base.length + edges.length ≤ verts.length) :
    base <+: acc'.2.2 ∧ base.length + acc'.2.1.length ≤ acc'.2.2.length := by
  rw [process_bound] at h
  split at h
  · rename_i bound orientation heq
    rcases hfb : face_bounds data bound orientation with _ | bc
    · rw [hfb] at h
      simp at h
    · rw [hfb] at h
      simp only [Option.bind_eq_bind, Option.some_bind] at h
      exact process_loop_inv s pts edges verts bc acc' base h hpre hlen
  · simp at h

lemma process_bounds_inv (data : List DataEntity) (s : Surface)
    (bounds : List ℕ) :
    ∀ (pts : List (ℝ × ℝ)) (edges : List (ℕ × ℕ)) (verts : List Vertex)
      (acc' : FaceAcc) (base : List Vertex),
    process_bounds data s (pts, edges, verts) bounds = some acc' →
    base <+: verts → base.length + edges.length ≤ verts.length →
    base <+: acc'.2.2 ∧ base.length + acc'.2.1.length ≤ acc'.2.2.length := by
  induction bounds with
  | nil =>
    intro pts edges verts acc' base h hpre hlen
    rw [process_bounds, List.foldlM_nil] at h
    cases h
    exact ⟨hpre, hlen⟩
  | cons b rest ih =>
    intro pts edges verts acc' base h hpre hlen
    rw [process_bounds, List.foldlM_cons] at h
    rcases hb : process_bound data s (pts, edges, verts) b with _ | acc₁
    · rw [hb] at h
      simp at h
    · rw [hb] at h
      simp only [Option.bind_eq_bind, Option.some_bind] at h
      obtain ⟨pts₁, edges₁, verts₁⟩ := acc₁
      have h1 := process_bound_inv data s pts edges verts b
        (pts₁, edges₁, verts₁) base hb hpre hlen
      exact ih pts₁ edges₁ verts₁ acc' base h h1.1 h1.2

lemma advanced_face_with_surface_extends (data : List DataEntity) (ext : Ext)
    (st : TriState) (bounds : List ℕ) (s : Surface) (same_sense : Bool)
    (st' : TriState)
    (h : advanced_face_with_surface data ext st bounds s same_sense = some st') :
    st.vertices <+: st'.vertices ∧ st.triangles <+: st'.triangles := by
  rw [advanced_face_with_surface] at h
  rcases hb : process_bounds data s ([], [], st.vertices) bounds with _ | acc
  · rw [hb] at h
    simp at h
  · rw [hb] at h
    obtain ⟨pts, edges, verts⟩ := acc
    simp only [Option.bind_eq_bind, Option.some_bind] at h
    have hinv := process_bounds_inv data s bounds [] [] st.vertices
      (pts, edges, verts) st.vertices hb (List.prefix_refl _) (by simp)
    rcases he : ext.engine pts edges with _ | _ | tris
    · rw [he] at h
      simp at h
    · rw [he] at h
      cases h
      exact ⟨hinv.1, List.prefix_refl _⟩
    · rw [he] at h
      cases h
      exact ⟨hinv.1, List.prefix_append _ _⟩

lemma advanced_face_extends (data : List DataEntity) (ext : Ext) (st : TriState)
    (bounds : List ℕ) (surface : ℕ) (same_sense : Bool) (st' : TriState)
    (h : advanced_face data ext st bounds surface same_sense = some st') :
    st.vertices <+: st'.vertices ∧ st.triangles <+: st'.triangles := by
  rw [advanced_face] at h
  rcases hs : get_surface data ext surface with _ | os
  · rw [hs] at h
    simp at h
  · rw [hs] at h
    simp only [Option.bind_eq_bind, Option.some_bind] at h
    rcases os with _ | s
    · cases h
      exact ⟨List.prefix_refl _, List.prefix_refl _⟩
    · exact advanced_face_with_surface_extends data ext st bounds s same_sense st' h

lemma process_entity_extends (data : List DataEntity) (ext : Ext) (st : TriState)
    (e : DataEntity) (st' : TriState)
    (h : process_entity data ext st e = some st') :
    st.vertices <+: st'.vertices ∧ st.triangles <+: st'.triangles := by
  cases e
  case AdvancedFace bounds surface same_sense =>
    exact advanced_face_extends data ext st bounds surface same_sense st' h
  all_goals
    simp only [process_entity, Option.pure_def, Option.some.injEq] at h
  all_goals
    cases h
  all_goals
    exact ⟨List.prefix_refl _, List.prefix_refl _⟩

lemma prefix_getElem? {α : Type} {l₁ l₂ : List α} (h : l₁ <+: l₂) (i : ℕ)
    (hi : i < l₁.length) : l₂[i]? = l₁[i]? := by
  obtain ⟨t, rfl⟩ := h
  exact List.getElem?_append_left hi

/-- Claim C5 — across the processing of any sequence of entities, the global
vertex and triangle buffers grow monotonically: the buffers before are a
prefix of the buffers after, so every already-valid index keeps referring to
the same element. -/
theorem append_only_buffers_spec (data : List DataEntity) (ext : Ext)
    (es : List DataEntity) (st st' : TriState)
    (h : process_entities data ext st es = some st') :
    st.vertices <+: st'.vertices ∧ st.triangles <+: st'.triangles ∧
    (∀ i, i < st.vertices.length → st'.vertices[i]? = st.vertices[i]?) ∧
    (∀ i, i < st.triangles.length → st'.triangles[i]? = st.triangles[i]?) := by
  have main : st.vertices <+: st'.vertices ∧ st.triangles <+: st'.triangles := by
    induction es generalizing st with
    | nil =>
      rw [process_entities, List.foldlM_nil] at h
      cases h
      exact ⟨List.prefix_refl _, List.prefix_refl _⟩
    | cons e rest ih =>
      rw [process_entities, List.foldlM_cons] at h
      rcases he : process_entity data ext st e with _ | st₁
      · rw [he] at h
        simp at h
      · rw [he] at h
        simp only [Option.bind_eq_bind, Option.some_bind] at h
        have h1 := process_entity_extends data ext st e st₁ he
        have h2 := ih st₁ h
        exact ⟨h1.1.trans h2.1, h1.2.trans h2.2⟩
  exact ⟨main.1, main.2,
    fun i hi => prefix_getElem? main.1 i hi,
    fun i hi => prefix_getElem? main.2 i hi⟩

/-- Witness for C5: a concrete (non-face) entity run, processed from a
non-empty state, leaves the buffers intact. -/
theorem append_only_buffers_spec_witness :
    process_entities wit_face_data wit_ext_ok
      ⟨[⟨⟨0,0,0⟩, ⟨0,0,1⟩, ⟨0,0,0⟩⟩], []⟩ [.other]
      = some ⟨[⟨⟨0,0,0⟩, ⟨0,0,1⟩, ⟨0,0,0⟩⟩], []⟩ ∧
    ([⟨⟨0,0,0⟩, ⟨0,0,1⟩, ⟨0,0,0⟩⟩] : List Vertex)
      <+: [⟨⟨0,0,0⟩, ⟨0,0,1⟩, ⟨0,0,0⟩⟩] := by
  refine ⟨rfl, ?_⟩
  exact (append_only_buffers_spec wit_face_data wit_ext_ok [.other]
    ⟨[⟨⟨0,0,0⟩, ⟨0,0,1⟩, ⟨0,0,0⟩⟩], []⟩ ⟨[⟨⟨0,0,0⟩, ⟨0,0,1⟩, ⟨0,0,0⟩⟩], []⟩ rfl).1

/-- Claim C4 — a `run()` rejection by the engine is recovered locally: the
face's processing still returns normally (no abort), no triangles are
emitted for that face, and the entity loop then continues with the remaining
entities from the resulting state. -/
theorem cdt_error_recovery_spec (data : List DataEntity) (ext : Ext)
    (st : TriState) (bounds : List ℕ) (s : Surface) (same_sense : Bool)
    (pts : List (ℝ × ℝ)) (edges : List (ℕ × ℕ)) (verts : List Vertex)
    (hb : process_bounds data s ([], [], st.vertices) bounds = some (pts, edges, verts))
    (he : ext.engine pts edges = .runErr) :
    advanced_face_with_surface data ext st bounds s same_sense
      = some ⟨verts, st.triangles⟩ ∧
    (∀ e rest st'', process_entity data ext st e = some st'' →
      process_entities data ext st (e :: rest) = process_entities data ext st'' rest) := by
  constructor
  · unfold advanced_face_with_surface
    simp only [hb, Option.bind_eq_bind, Option.some_bind, he]
    rfl
  · intro e rest st'' hp
    rw [process_entities, List.foldlM_cons, hp]
    simp only [Option.bind_eq_bind, Option.some_bind]
    rfl

/-- Witness for C4: the engine rejects the Steiner-point face; the face
yields its vertex but no triangle, and a following entity is still
processed. -/
theorem cdt_error_recovery_spec_witness :
    ∃ pts edges verts,
      process_bounds wit_face_data wit_plane ([], [], ([] : List Vertex)) [1]
        = some (pts, edges, verts) ∧
      advanced_face_with_surface wit_face_data wit_ext_err ⟨[], []⟩ [1]
        wit_plane true = some ⟨verts, []⟩ ∧
      process_entities wit_face_data wit_ext_err ⟨[], []⟩ [.other, .other]
        = process_entities wit_face_data wit_ext_err ⟨[], []⟩ [.other] := by
  refine ⟨_, _, _, rfl, ?_, ?_⟩
  · exact (cdt_error_recovery_spec wit_face_data wit_ext_err ⟨[], []⟩ [1]
      wit_plane true _ _ _ rfl rfl).1
  · exact (cdt_error_recovery_spec wit_face_data wit_ext_err ⟨[], []⟩ [1]
      wit_plane true _ _ _ rfl rfl).2 .other [.other] ⟨[], []⟩ rfl

/-- Claim C10 — when the engine rejects a face at the `run()` stage, the
boundary vertices already appended for that face are kept (the vertex buffer
ends as the assembled `verts`, of which the entry state's vertices are a
prefix — no rollback), while the triangle buffer is returned unchanged, so
the resulting mesh may contain vertices referenced by no triangle. -/
theorem failed_face_keeps_vertices_spec (data : List DataEntity) (ext : Ext)
    (st : TriState) (bounds : List ℕ) (s : Surface) (same_sense : Bool)
    (pts : List (ℝ × ℝ)) (edges : List (ℕ × ℕ)) (verts : List Vertex)
    (hb : process_bounds data s ([], [], st.vertices) bounds = some (pts, edges, verts))
    (he : ext.engine pts edges = .runErr) :
    advanced_face_with_surface data ext st bounds s same_sense
      = some ⟨verts, st.triangles⟩ ∧
    st.vertices <+: verts ∧
    (⟨verts, st.triangles⟩ : TriState).triangles = st.triangles := by
  refine ⟨?_, ?_, rfl⟩
  · unfold advanced_face_with_surface
    simp only [hb, Option.bind_eq_bind, Option.some_bind, he]
    rfl
  · exact (process_bounds_inv data s bounds [] [] st.vertices
      (pts, edges, verts) st.vertices hb (List.prefix_refl _) (by simp)).1

/-- Witness for C10: the rejected Steiner-point face retains its one appended
vertex while emitting no triangle. -/
theorem failed_face_keeps_vertices_spec_witness :
    ∃ pts edges verts,
      process_bounds wit_face_data wit_plane ([], [], ([] : List Vertex)) [1]
        = some (pts, edges, verts) ∧
      advanced_face_with_surface wit_face_data wit_ext_err ⟨[], []⟩ [1]
        wit_plane true = some ⟨verts, []⟩ ∧
      verts.length = 1 := by
  refine ⟨_, _, _, rfl, ?_, rfl⟩
  exact (failed_face_keeps_vertices_spec wit_face_data wit_ext_err ⟨[], []⟩ [1]
    wit_plane true _ _ _ rfl rfl).1

/-- Claim C6 — for an arc with resolved start angle `u_ang` and raw end angle
`v_ang_raw`: the sample count is `max(4, round(64·span/2π))` for the adjusted
angular span; the first and last returned points are exactly the supplied `u`
and `v`; every interior sample is the linear angle interpolation mapped back
through the ellipse-plane basis; and successive angular steps are uniform. -/
theorem ellipse_sampling_spec (u v : V3) (M : Mat4) (u_ang v_ang_raw : ℝ)
    (closed dir : Bool) (v_ang : ℝ) (count : ℕ)
    (hva : v_ang = adjust_angle u_ang v_ang_raw closed dir)
    (hc : count = ellipse_count u_ang v_ang) :
    (ellipse_from_angles u v M u_ang v_ang_raw closed dir).length = count ∧
    (ellipse_from_angles u v M u_ang v_ang_raw closed dir).head? = some u ∧
    (ellipse_from_angles u v M u_ang v_ang_raw closed dir).getLast? = some v ∧
    (∀ i, 1 ≤ i → i < count - 1 →
      (ellipse_from_angles u v M u_ang v_ang_raw closed dir)[i]?
        = some (eplane_lift M (interp_angle u_ang v_ang count i))) ∧
    (∀ i : ℕ, interp_angle u_ang v_ang count (i + 1)
        - interp_angle u_ang v_ang count i
      = (v_ang - u_ang) / ((count - 1 : ℕ) : ℝ)) := by
  subst hva
  subst hc
  have hl : ellipse_from_angles u v M u_ang v_ang_raw closed dir
      = u :: ((List.range (ellipse_count u_ang
            (adjust_angle u_ang v_ang_raw closed dir) - 2)).map fun j =>
          eplane_lift M (interp_angle u_ang
            (adjust_angle u_ang v_ang_raw closed dir)
            (ellipse_count u_ang (adjust_angle u_ang v_ang_raw closed dir))
            (j + 1))) ++ [v] := rfl
  have h4 : 4 ≤ ellipse_count u_ang (adjust_angle u_ang v_ang_raw closed dir) :=
    le_max_left _ _
  set c := ellipse_count u_ang (adjust_angle u_ang v_ang_raw closed dir) with hcdef
  refine ⟨?_, ?_, ?_, ?_, ?_⟩
  · rw [hl]
    simp only [List.length_append, List.length_cons, List.length_map,
      List.length_range, List.length_singleton, List.length_nil]
    omega
  · rw [hl]
    rfl
  · rw [hl, List.getLast?_concat]
  · intro i h1 h2
    obtain ⟨j, rfl⟩ : ∃ j, i = j + 1 := ⟨i - 1, by omega⟩
    rw [hl, List.cons_append, List.getElem?_cons_succ,
      List.getElem?_append_left (by simp; omega),
      List.getElem?_map, List.getElem?_range (by omega)]
    rfl
  · intro i
    have hne : (((ellipse_count u_ang
        (adjust_angle u_ang v_ang_raw closed dir)) - 1 : ℕ) : ℝ) ≠ 0 := by
      have : 3 ≤ ellipse_count u_ang (adjust_angle u_ang v_ang_raw closed dir) - 1 := by
        omega
      exact Nat.cast_ne_zero.mpr (by omega)
    rw [interp_angle, interp_angle]
    push_cast
    field_simp
    ring

/-- Witness for C6: a full-circle arc (`closed = true`, `dir = true`) from
start angle 0 spans `2π` and yields exactly `max(4, round(64)) = 64`
samples, the first and last being the exact supplied endpoints. -/
theorem ellipse_sampling_spec_witness :
    adjust_angle 0 0 true true = 2 * Real.pi ∧
    ellipse_count 0 (2 * Real.pi) = 64 ∧
    (ellipse_from_angles ⟨1,0,0⟩ ⟨1,0,0⟩ 1 0 0 true true).length = 64 ∧
    (ellipse_from_angles ⟨1,0,0⟩ ⟨1,0,0⟩ 1 0 0 true true).head?
      = some ⟨1,0,0⟩ ∧
    (ellipse_from_angles ⟨1,0,0⟩ ⟨1,0,0⟩ 1 0 0 true true).getLast?
      = some ⟨1,0,0⟩ := by
  have h1 : adjust_angle 0 0 true true = 2 * Real.pi := by
    simp [adjust_angle]
  have h2 : ellipse_count 0 (2 * Real.pi) = 64 := by
    rw [ellipse_count]
    have habs : |(0:ℝ) - 2 * Real.pi| = 2 * Real.pi := by
      rw [zero_sub, abs_neg, abs_of_nonneg (by positivity)]
    rw [habs]
    rw [show (64:ℝ) * (2 * Real.pi) / (2 * Real.pi) = 64 by
      field_simp]
    norm_num
    rfl
  have h := ellipse_sampling_spec ⟨1,0,0⟩ ⟨1,0,0⟩ 1 0 0 true true
    (2 * Real.pi) 64 h1.symm h2.symm
  exact ⟨h1, h2, h.1, h.2.1, h.2.2.1⟩

/-- The 12 bytes of one vertex's coordinates in the STL record. -/
def stl_coords (enc : ℝ → List ℕ) (v : Vertex) : List ℕ :=
  enc v.pos.x ++ enc v.pos.y ++ enc v.pos.z

lemma stl_triangle_bytes_eq (vertices : List Vertex) (enc : ℝ → List ℕ)
    (dflt : Vertex) (t : Triangle)
    (h1 : t.verts.1 < vertices.length) (h2 : t.verts.2.1 < vertices.length)
    (h3 : t.verts.2.2 < vertices.length) :
    stl_triangle_bytes vertices enc t = some (
      List.replicate 12 0 ++
      stl_coords enc (vertices.getD t.verts.1 dflt) ++
      stl_coords enc (vertices.getD t.verts.2.1 dflt) ++
      stl_coords enc (vertices.getD t.verts.2.2 dflt) ++
      List.replicate 2 0) := by
  rw [stl_triangle_bytes]
  rw [List.getElem?_eq_getElem h1, List.getElem?_eq_getElem h2,
    List.getElem?_eq_getElem h3]
  simp only [Option.bind_eq_bind, Option.some_bind, Option.some.injEq]
  rw [List.getD_eq_getElem vertices dflt h1, List.getD_eq_getElem vertices dflt h2,
    List.getD_eq_getElem vertices dflt h3]
  simp [stl_coords, List.append_assoc]

lemma stl_block_length (enc : ℝ → List ℕ) (henc : ∀ x, (enc x).length = 4)
    (dflt : Vertex) (vertices : List Vertex) (t : Triangle) :
    (List.replicate 12 0 ++
      stl_coords enc (vertices.getD t.verts.1 dflt) ++
      stl_coords enc (vertices.getD t.verts.2.1 dflt) ++
      stl_coords enc (vertices.getD t.verts.2.2 dflt) ++
      List.replicate 2 0).length = 50 := by
  simp [stl_coords, henc]

lemma stl_mapM_eq (vertices : List Vertex) (enc : ℝ → List ℕ) (dflt : Vertex) :
    ∀ (triangles : List Triangle),
    (∀ t ∈ triangles, t.verts.1 < vertices.length ∧
      t.verts.2.1 < vertices.length ∧ t.verts.2.2 < vertices.length) →
    triangles.mapM (stl_triangle_bytes vertices enc)
      = some (triangles.map (fun t =>
          List.replicate 12 0 ++
          stl_coords enc (vertices.getD t.verts.1 dflt) ++
          stl_coords enc (vertices.getD t.verts.2.1 dflt) ++
          stl_coords enc (vertices.getD t.verts.2.2 dflt) ++
          List.replicate 2 0)) := by
  intro triangles
  induction triangles with
  | nil => intro _; rfl
  | cons t rest ih =>
    intro hidx
    have ht := hidx t (by simp)
    rw [List.mapM_cons, stl_triangle_bytes_eq vertices enc dflt t ht.1 ht.2.1 ht.2.2]
    rw [ih (fun t' ht' => hidx t' (by simp [ht']))]
    rfl

/-- Claim C9 — the binary STL export is exactly: 80 header bytes, the
little-endian 32-bit triangle count, then per triangle 12 zero bytes, the
three vertices' coordinates (4 encoded bytes per coordinate), and 2 zero
bytes — `84 + 50·n` bytes in total; and the export fails when the triangle
count exceeds the 32-bit range. -/
theorem stl_layout_spec (vertices : List Vertex) (triangles : List Triangle)
    (enc : ℝ → List ℕ) (dflt : Vertex)
    (henc : ∀ x, (enc x).length = 4)
    (hidx : ∀ t ∈ triangles, t.verts.1 < vertices.length ∧
      t.verts.2.1 < vertices.length ∧ t.verts.2.2 < vertices.length) :
    (triangles.length < 2 ^ 32 →
      save_stl vertices triangles enc = some (
        List.replicate 80 120 ++ u32le triangles.length ++
        (triangles.map (fun t =>
          List.replicate 12 0 ++
          stl_coords enc (vertices.getD t.verts.1 dflt) ++
          stl_coords enc (vertices.getD t.verts.2.1 dflt) ++
          stl_coords enc (vertices.getD t.verts.2.2 dflt) ++
          List.replicate 2 0)).flatten) ∧
      (∀ out, save_stl vertices triangles enc = some out →
        out.length = 84 + 50 * triangles.length)) ∧
    (2 ^ 32 ≤ triangles.length → save_stl vertices triangles enc = none) := by
  constructor
  · intro hn
    have hsome : save_stl vertices triangles enc = some (
        List.replicate 80 120 ++ u32le triangles.length ++
        (triangles.map (fun t =>
          List.replicate 12 0 ++
          stl_coords enc (vertices.getD t.verts.1 dflt) ++
          stl_coords enc (vertices.getD t.verts.2.1 dflt) ++
          stl_coords enc (vertices.getD t.verts.2.2 dflt) ++
          List.replicate 2 0)).flatten) := by
      rw [save_stl, if_pos hn, stl_mapM_eq vertices enc dflt triangles hidx]
      rfl
    refine ⟨hsome, ?_⟩
    intro out hout
    rw [hsome] at hout
    cases hout
    simp only [List.length_append, List.length_replicate, u32le,
      List.length_cons, List.length_nil, List.length_flatten, List.map_map]
    have hsum : ((triangles.map (fun t =>
        List.replicate 12 0 ++
        stl_coords enc (vertices.getD t.verts.1 dflt) ++
        stl_coords enc (vertices.getD t.verts.2.1 dflt) ++
        stl_coords enc (vertices.getD t.verts.2.2 dflt) ++
        List.replicate 2 0)).map List.length).sum = 50 * triangles.length := by
      rw [List.map_map]
      have : (List.length ∘ fun t : Triangle =>
          List.replicate 12 0 ++
          stl_coords enc (vertices.getD t.verts.1 dflt) ++
          stl_coords enc (vertices.getD t.verts.2.1 dflt) ++
          stl_coords enc (vertices.getD t.verts.2.2 dflt) ++
          List.replicate 2 0) = fun _ => 50 := by
        funext t
        exact stl_block_length enc henc dflt vertices t
      rw [this, List.map_const', List.sum_replicate, smul_eq_mul, mul_comm]
    rw [List.map_map] at hsum
    rw [hsum]
  · intro hn
    rw [save_stl, if_neg (by omega)]

/-- STL witness fixtures. -/
def wit_stl_vertices : List Vertex :=
  [⟨⟨0,0,0⟩, ⟨0,0,1⟩, ⟨0,0,0⟩⟩, ⟨⟨1,0,0⟩, ⟨0,0,1⟩, ⟨0,0,0⟩⟩,
   ⟨⟨0,1,0⟩, ⟨0,0,1⟩, ⟨0,0,0⟩⟩]

/-- STL witness fixtures. -/
def wit_stl_triangles : List Triangle := [⟨(0, 1, 2)⟩]

/-- Witness for C9: one triangle over three vertices with a trivial 4-byte
encoder gives an 84 + 50·1 = 134 byte file. -/
theorem stl_layout_spec_witness :
    ∃ out, save_stl wit_stl_vertices wit_stl_triangles (fun _ => [0, 0, 0, 0])
        = some out ∧
      out.length = 84 + 50 * 1 := by
  have hidx : ∀ t ∈ wit_stl_triangles, t.verts.1 < wit_stl_vertices.length ∧
      t.verts.2.1 < wit_stl_vertices.length ∧
      t.verts.2.2 < wit_stl_vertices.length := by
    intro t ht
    simp only [wit_stl_triangles, List.mem_singleton] at ht
    subst ht
    refine ⟨by decide, by decide, by decide⟩
  have h := stl_layout_spec wit_stl_vertices wit_stl_triangles
    (fun _ => [0, 0, 0, 0]) ⟨⟨0,0,0⟩, ⟨0,0,1⟩, ⟨0,0,0⟩⟩ (fun _ => rfl) hidx
  have hlt : wit_stl_triangles.length < 2 ^ 32 := by
    rw [wit_stl_triangles]
    norm_num
  obtain ⟨hsome, hlen⟩ := h.1 hlt
  exact ⟨_, hsome, hlen _ hsome⟩

end StepTri
